import Mathlib

/-!
Verification development for the `unica_mlsec_labs` notebooks.

The repository is glue code over the external `secml` / `foolbox` toolkit:
notebook cells load datasets, rescale them, instantiate attack and explainer
objects, and call `run` / `explain` / `performance_score`.  The definitions
below embed, in Lean, the data model and the operations those cells perform.
Operations implemented by the external toolkit (and therefore not present in
the repository's own files) are modelled from the specification's description
of them; each such definition carries a doc comment saying so.

Feature values are modelled as rationals, labels as naturals.
-/

/-- Minimum of a list of rationals (`CArray.min` of the toolkit); `0` on the
empty list, which never occurs in the notebooks. -/
def listMin : List ℚ → ℚ
  | [] => 0
  | a :: l => l.foldl min a

/-- Maximum of a list of rationals (`CArray.max` of the toolkit); `0` on the
empty list. -/
def listMax : List ℚ → ℚ
  | [] => 0
  | a :: l => l.foldl max a

theorem foldl_min_le_init (l : List ℚ) (a : ℚ) : l.foldl min a ≤ a := by
  induction l generalizing a with
  | nil => exact le_refl a
  | cons b t ih =>
      calc t.foldl min (min a b) ≤ min a b := ih (min a b)
        _ ≤ a := min_le_left a b

theorem foldl_min_le_mem (l : List ℚ) (a x : ℚ) (hx : x ∈ l) :
    l.foldl min a ≤ x := by
  induction l generalizing a with
  | nil => cases hx
  | cons b t ih =>
      rcases List.mem_cons.mp hx with h | h
      · subst h
        calc t.foldl min (min a x) ≤ min a x := foldl_min_le_init t (min a x)
          _ ≤ x := min_le_right a x
      · exact ih (min a b) h

theorem le_foldl_max_init (l : List ℚ) (a : ℚ) : a ≤ l.foldl max a := by
  induction l generalizing a with
  | nil => exact le_refl a
  | cons b t ih =>
      calc a ≤ max a b := le_max_left a b
        _ ≤ t.foldl max (max a b) := ih (max a b)

theorem le_foldl_max_mem (l : List ℚ) (a x : ℚ) (hx : x ∈ l) :
    x ≤ l.foldl max a := by
  induction l generalizing a with
  | nil => cases hx
  | cons b t ih =>
      rcases List.mem_cons.mp hx with h | h
      · subst h
        calc x ≤ max a x := le_max_right a x
          _ ≤ t.foldl max (max a x) := le_foldl_max_init t (max a x)
      · exact ih (max a b) h

theorem foldl_max_le (l : List ℚ) (a c : ℚ) (ha : a ≤ c)
    (h : ∀ x ∈ l, x ≤ c) : l.foldl max a ≤ c := by
  induction l generalizing a with
  | nil => exact ha
  | cons b t ih =>
      exact ih (max a b) (max_le ha (h b (List.mem_cons_self b t)))
        (fun x hx => h x (List.mem_cons_of_mem b hx))

theorem listMin_le (l : List ℚ) (x : ℚ) (hx : x ∈ l) : listMin l ≤ x := by
  cases l with
  | nil => cases hx
  | cons a t =>
      rcases List.mem_cons.mp hx with h | h
      · subst h; exact foldl_min_le_init t x
      · exact foldl_min_le_mem t a x h

theorem le_listMax (l : List ℚ) (x : ℚ) (hx : x ∈ l) : x ≤ listMax l := by
  cases l with
  | nil => cases hx
  | cons a t =>
      rcases List.mem_cons.mp hx with h | h
      · subst h; exact le_foldl_max_init t x
      · exact le_foldl_max_mem t a x h

theorem listMin_le_listMax (l : List ℚ) (h : l ≠ []) :
    listMin l ≤ listMax l := by
  cases l with
  | nil => exact absurd rfl h
  | cons a t =>
      exact le_trans (foldl_min_le_init t a) (le_foldl_max_init t a)

/-- A `secml` dataset: feature matrix `X` (one row per sample) and label
vector `Y`, as used by every notebook (`tr.X`, `tr.Y`, ...). -/
structure CDataset where
  X : List (List ℚ)
  Y : List ℕ
deriving DecidableEq

/-- Number of samples of a dataset (`ds.num_samples`). -/
def CDataset.num_samples (ds : CDataset) : ℕ := ds.X.length

/-- The rescaling statement `ds.X /= 255` of the notebooks' data-loading
cells: every feature entry is divided by 255; nothing else is assigned. -/
def divBy255 (ds : CDataset) : CDataset :=
  ⟨ds.X.map (fun r => r.map (fun v => v / 255)), ds.Y⟩

/-- Fitted state of a min-max normalizer: the minimum and maximum recorded
by `fit`. -/
structure CNormalizerMinMax where
  mn : ℚ
  mx : ℚ
deriving DecidableEq

/-- Modelled from the spec: "min-max scaling" (`CNormalizerMinMax` of the
external `secml` library, absent from this repository).  `fit` records the
minimum and maximum of the fitted feature matrix. -/
def CNormalizerMinMax.fit (X : List (List ℚ)) : CNormalizerMinMax :=
  ⟨listMin X.flatten, listMax X.flatten⟩

/-- Modelled from the spec: `transform` rescales each entry affinely so that
the fitted range `[mn, mx]` maps onto `[0, 1]`. -/
def CNormalizerMinMax.transform (n : CNormalizerMinMax)
    (X : List (List ℚ)) : List (List ℚ) :=
  X.map (fun r => r.map (fun v => (v - n.mn) / (n.mx - n.mn)))

/-- `fit_transform`, as called on `tr.X` in the poisoning notebook. -/
def CNormalizerMinMax.fit_transform (X : List (List ℚ)) : List (List ℚ) :=
  (CNormalizerMinMax.fit X).transform X

/-- The dataset update `ds.X = nmz.transform(ds.X)`: only `X` is assigned. -/
def normalizeMinMaxDs (n : CNormalizerMinMax) (ds : CDataset) : CDataset :=
  ⟨n.transform ds.X, ds.Y⟩

/-- The attack-space bounds of the poisoning notebook:
`lb, ub = val.X.min(), val.X.max()`. -/
def attackBounds (val : CDataset) : ℚ × ℚ :=
  (listMin val.X.flatten, listMax val.X.flatten)

/-- A `CConstraintBox(lb=lb, ub=ub)` of the poisoning notebook: the box with
scalar lower and upper bounds applied to every coordinate. -/
structure CConstraintBox where
  lb : ℚ
  ub : ℚ
deriving DecidableEq

/-- Membership of a point in the box: every coordinate between `lb` and
`ub`. -/
def CConstraintBox.contains (b : CConstraintBox) (x : List ℚ) : Prop :=
  ∀ v ∈ x, b.lb ≤ v ∧ v ≤ b.ub

instance (b : CConstraintBox) (x : List ℚ) : Decidable (b.contains x) :=
  List.decidableBAll _ x

/-- The box is non-empty when `lb ≤ ub`. -/
def CConstraintBox.nonempty (b : CConstraintBox) : Prop := b.lb ≤ b.ub

theorem minMaxScale_mem_unit (m M v : ℚ) (hm : m ≤ v) (hM : v ≤ M) :
    0 ≤ (v - m) / (M - m) ∧ (v - m) / (M - m) ≤ 1 := by
  rcases eq_or_lt_of_le (le_trans hm hM) with h | h
  · have hv : v = m := le_antisymm (h ▸ hM) hm
    subst hv
    simp
  · have hpos : 0 < M - m := sub_pos.mpr h
    constructor
    · exact div_nonneg (sub_nonneg.mpr hm) (le_of_lt hpos)
    · rw [div_le_one hpos]
      exact sub_le_sub_right hM m

theorem transform_mem_unit (F T : List (List ℚ))
    (hT : ∀ v ∈ T.flatten, listMin F.flatten ≤ v ∧ v ≤ listMax F.flatten) :
    ∀ v ∈ ((CNormalizerMinMax.fit F).transform T).flatten, 0 ≤ v ∧ v ≤ 1 := by
  intro v hv
  rw [List.mem_flatten] at hv
  obtain ⟨r, hr, hvr⟩ := hv
  rw [CNormalizerMinMax.transform, List.mem_map] at hr
  obtain ⟨r0, hr0, hr0eq⟩ := hr
  subst hr0eq
  rw [List.mem_map] at hvr
  obtain ⟨u, hu, hueq⟩ := hvr
  subst hueq
  have humem : u ∈ T.flatten := List.mem_flatten.mpr ⟨r0, hr0, hu⟩
  exact minMaxScale_mem_unit _ _ u (hT u humem).1 (hT u humem).2

/-- A fitted classifier as the notebooks use it.  Modelled from the spec:
"wraps a trained model; exposes `predict(X) -> labels`; for gradient-based
attacks exposes a loss/objective function and its gradient" (the concrete
models are external: `CClassifierSVM`, `CClassifierPyTorch`). -/
structure CClassifier where
  decision_function : List ℚ → List ℚ
  gradient : List ℚ → List ℚ

/-- `predict`: the index of the highest-scoring class. -/
def CClassifier.predict (c : CClassifier) (x : List ℚ) : ℕ :=
  (c.decision_function x).indexOf (listMax (c.decision_function x))

/-- `CMetricAccuracy.performance_score`: the fraction of samples whose
prediction equals the true label. -/
def performance_score (y_true y_pred : List ℕ) : ℚ :=
  (List.zipWith (fun a b => if a = b then (1 : ℚ) else 0) y_true y_pred).sum
    / (y_true.length : ℚ)

/-- Sign of a rational, the `sign` used by the Linf PGD update. -/
def ratSign (q : ℚ) : ℚ := if q < 0 then -1 else if q = 0 then 0 else 1

/-- Clip a value into the feature bounds `[lo, hi]`. -/
def clipBound (lo hi v : ℚ) : ℚ := min hi (max lo v)

/-- Projection of a coordinate onto the Linf ball of radius `ε` centred at
the clean coordinate `c0`. -/
def projLinf (ε c0 v : ℚ) : ℚ := min (c0 + ε) (max (c0 - ε) v)

/-- The `CFoolboxPGDLinf` attack object of the notebooks, with the
hyperparameters the cells pass: bounds `lb`/`ub`, budget `epsilons`,
`abs_stepsize`, `steps`, `random_start`, optional `y_target`. -/
structure CFoolboxPGDLinf where
  clf : CClassifier
  y_target : Option ℕ
  lb : ℚ
  ub : ℚ
  epsilons : ℚ
  abs_stepsize : ℚ
  steps : ℕ
  random_start : Bool

/-- Modelled from the spec: one step of the external PGD-Linf optimizer
("bounds respected by the attack's projection step"): a signed gradient
step, projection onto the `epsilons`-ball around the clean input, and a
clip to the feature bounds, coordinate by coordinate. -/
def CFoolboxPGDLinf.advStep (a : CFoolboxPGDLinf) (x0 x : List ℚ) :
    List ℚ :=
  List.zipWith
    (fun c0 p => clipBound a.lb a.ub
      (projLinf a.epsilons c0 (p.1 + a.abs_stepsize * ratSign p.2)))
    x0 (x.zip (a.clf.gradient x))

/-- Modelled from the spec: the starting point of the optimization.  With
`random_start` the draw `δ` is added and the result projected and clipped;
otherwise the clean input is used as is. -/
def CFoolboxPGDLinf.pgdInit (a : CFoolboxPGDLinf) (δ x0 : List ℚ) :
    List ℚ :=
  if a.random_start then
    List.zipWith
      (fun c0 d => clipBound a.lb a.ub (projLinf a.epsilons c0 (c0 + d)))
      x0 δ
  else x0

/-- The iterates of the attack on one sample: `n` PGD steps after the
initialization. -/
def CFoolboxPGDLinf.pgdIterate (a : CFoolboxPGDLinf) (δ x0 : List ℚ) :
    ℕ → List ℚ
  | 0 => a.pgdInit δ x0
  | n + 1 => a.advStep x0 (a.pgdIterate δ x0 n)

/-- The adversarial example returned for one sample: the final iterate. -/
def CFoolboxPGDLinf.adversarial (a : CFoolboxPGDLinf) (δ x0 : List ℚ) :
    List ℚ :=
  a.pgdIterate δ x0 a.steps

/-- `attack.x_seq`: the optimization path through the input space, from the
initialization to the final iterate. -/
def CFoolboxPGDLinf.x_seq (a : CFoolboxPGDLinf) (δ x0 : List ℚ) :
    List (List ℚ) :=
  (List.range (a.steps + 1)).map (a.pgdIterate δ x0)

/-- The attacker loss reported by the attack (difference between the top
score and the true-class score). -/
def CFoolboxPGDLinf.lossAt (a : CFoolboxPGDLinf) (x : List ℚ) (y : ℕ) : ℚ :=
  listMax (a.clf.decision_function x) - (a.clf.decision_function x).getD y 0

/-- The value returned by `attack.run`, unpacked in the notebooks as
`y_pred_adv, scores, adv_ds, f_opt`. -/
structure RunResult where
  y_pred : List ℕ
  scores : List (List ℚ)
  adv_ds : CDataset
  f_opt : ℚ

/-- `attack.run(x, y)`: optimize every sample of the batch, and return the
predictions on the adversarial points, their scores, the adversarial
dataset, and the final objective value. -/
def CFoolboxPGDLinf.run (a : CFoolboxPGDLinf) (δ : List ℚ)
    (X : List (List ℚ)) (Y : List ℕ) : RunResult :=
  ⟨(X.map (a.adversarial δ)).map a.clf.predict,
   (X.map (a.adversarial δ)).map a.clf.decision_function,
   ⟨X.map (a.adversarial δ), Y⟩,
   (List.zipWith a.lossAt (X.map (a.adversarial δ)) Y).sum⟩

/-- Linf distance between two points, the norm of the `CFoolboxPGDLinf`
attack. -/
def linfDist (x y : List ℚ) : ℚ :=
  (List.zipWith (fun a b => |a - b|) x y).foldl max 0

/-- Every coordinate of `y` is inside the feature bounds and within
`epsilons` of the matching coordinate of the clean point `x0`. -/
def withinBudget (a : CFoolboxPGDLinf) (x0 y : List ℚ) : Prop :=
  ∀ j < y.length,
    (a.lb ≤ y.getD j 0 ∧ y.getD j 0 ≤ a.ub) ∧
    |y.getD j 0 - x0.getD j 0| ≤ a.epsilons

theorem clip_proj_mem (lb ub ε c0 v : ℚ) (hε : 0 ≤ ε) (hlo : lb ≤ c0)
    (hhi : c0 ≤ ub) :
    (lb ≤ clipBound lb ub (projLinf ε c0 v) ∧
      clipBound lb ub (projLinf ε c0 v) ≤ ub) ∧
    |clipBound lb ub (projLinf ε c0 v) - c0| ≤ ε := by
  unfold clipBound projLinf
  set w := min (c0 + ε) (max (c0 - ε) v) with hw
  have hw1 : w ≤ c0 + ε := min_le_left _ _
  have hw2 : c0 - ε ≤ w := le_min (by linarith) (le_max_left _ _)
  have hlbub : lb ≤ ub := le_trans hlo hhi
  refine ⟨⟨le_min hlbub (le_max_left _ _), min_le_left _ _⟩, ?_⟩
  rw [abs_le]
  constructor
  · have h1 : c0 - ε ≤ min ub (max lb w) :=
      le_min (by linarith) (le_trans hw2 (le_max_right _ _))
    linarith
  · have h1 : max lb w ≤ c0 + ε := max_le (by linarith) hw1
    have h2 : min ub (max lb w) ≤ c0 + ε := le_trans (min_le_right _ _) h1
    linarith

theorem zipWith_clip_budget (a : CFoolboxPGDLinf) (x0 : List ℚ)
    {β : Type} (l : List β) (g : ℚ → β → ℚ) (hε : 0 ≤ a.epsilons)
    (hx0 : ∀ c ∈ x0, a.lb ≤ c ∧ c ≤ a.ub) :
    withinBudget a x0
      (List.zipWith
        (fun c0 b => clipBound a.lb a.ub (projLinf a.epsilons c0 (g c0 b)))
        x0 l) := by
  intro j hj
  have hjx0 : j < x0.length := by
    rw [List.length_zipWith] at hj
    exact lt_of_lt_of_le hj inf_le_left
  have hjl : j < l.length := by
    rw [List.length_zipWith] at hj
    exact lt_of_lt_of_le hj inf_le_right
  rw [List.getD_eq_getElem _ _ hj, List.getD_eq_getElem _ _ hjx0,
    List.getElem_zipWith]
  exact clip_proj_mem a.lb a.ub a.epsilons _ _ hε
    (hx0 _ (List.getElem_mem hjx0)).1 (hx0 _ (List.getElem_mem hjx0)).2

theorem pgdIterate_budget (a : CFoolboxPGDLinf) (δ x0 : List ℚ)
    (hε : 0 ≤ a.epsilons) (hx0 : ∀ c ∈ x0, a.lb ≤ c ∧ c ≤ a.ub) :
    ∀ n, withinBudget a x0 (a.pgdIterate δ x0 n) := by
  intro n
  cases n with
  | zero =>
      show withinBudget a x0 (a.pgdInit δ x0)
      unfold CFoolboxPGDLinf.pgdInit
      by_cases hr : a.random_start
      · rw [if_pos hr]
        exact zipWith_clip_budget a x0 δ (fun c0 d => c0 + d) hε hx0
      · rw [if_neg hr]
        intro j hj
        have h1 : x0.getD j 0 ∈ x0 := by
          rw [List.getD_eq_getElem _ _ hj]
          exact List.getElem_mem hj
        refine ⟨hx0 _ h1, ?_⟩
        simp [hε]
  | succ n =>
      show withinBudget a x0 (a.advStep x0 (a.pgdIterate δ x0 n))
      generalize a.pgdIterate δ x0 n = z
      unfold CFoolboxPGDLinf.advStep
      exact zipWith_clip_budget a x0 (z.zip (a.clf.gradient z))
        (fun c0 p => p.1 + a.abs_stepsize * ratSign p.2) hε hx0

theorem linfDist_le_of_withinBudget (a : CFoolboxPGDLinf) (x0 y : List ℚ)
    (hε : 0 ≤ a.epsilons) (h : withinBudget a x0 y) :
    linfDist x0 y ≤ a.epsilons := by
  unfold linfDist
  apply foldl_max_le _ _ _ hε
  intro v hv
  rw [List.mem_iff_getElem] at hv
  obtain ⟨j, hj, hval⟩ := hv
  have hjy : j < y.length := by
    rw [List.length_zipWith] at hj
    exact lt_of_lt_of_le hj inf_le_right
  have hjx0 : j < x0.length := by
    rw [List.length_zipWith] at hj
    exact lt_of_lt_of_le hj inf_le_left
  rw [List.getElem_zipWith] at hval
  have hb := (h j hjy).2
  rw [List.getD_eq_getElem _ _ hjy, List.getD_eq_getElem _ _ hjx0] at hb
  rw [← hval, abs_sub_comm]
  exact hb

/-- Claim C1: for every fitted classifier, batch of inputs, and attack
configured with budget `epsilons`, step size, step count, random-start flag
and optional target class, every adversarial input produced by `run` is
within the budget: its Linf distance from the matching original input is at
most `epsilons`, and every coordinate stays inside `[lb, ub]`. -/
theorem pgd_run_within_budget (a : CFoolboxPGDLinf) (δ : List ℚ)
    (X : List (List ℚ)) (Y : List ℕ) (hε : 0 ≤ a.epsilons)
    (hX : ∀ x ∈ X, ∀ c ∈ x, a.lb ≤ c ∧ c ≤ a.ub) :
    (a.run δ X Y).adv_ds.X = X.map (a.adversarial δ) ∧
    ∀ x ∈ X, linfDist x (a.adversarial δ x) ≤ a.epsilons ∧
      ∀ c ∈ a.adversarial δ x, a.lb ≤ c ∧ c ≤ a.ub := by
  refine ⟨rfl, ?_⟩
  intro x hx
  have hwb : withinBudget a x (a.adversarial δ x) :=
    pgdIterate_budget a δ x hε (hX x hx) a.steps
  constructor
  · exact linfDist_le_of_withinBudget a x _ hε hwb
  · intro c hc
    rw [List.mem_iff_getElem] at hc
    obtain ⟨j, hj, hval⟩ := hc
    have hb := (hwb j hj).1
    rw [List.getD_eq_getElem _ _ hj] at hb
    rw [← hval]
    exact hb

/-- A concrete classifier whose scores are constant, used to instantiate
the attack theorems. -/
def constClf : CClassifier := ⟨fun _ => [1], fun _ => [0]⟩

/-- A concrete attack instance: bounds `[0, 1]`, budget `1`, step size `1`,
two steps, no random start, untargeted. -/
def smallAttack : CFoolboxPGDLinf :=
  ⟨constClf, none, 0, 1, 1, 1, 2, false⟩

/-- A concrete attack instance that performs zero optimization steps, so the
returned predictions necessarily equal the clean predictions. -/
def zeroStepAttack : CFoolboxPGDLinf :=
  ⟨constClf, none, 0, 1, 1, 1, 0, false⟩

theorem pgd_run_within_budget_witness :
    (0 ≤ smallAttack.epsilons) ∧
    (∀ x ∈ [[(0 : ℚ)]], ∀ c ∈ x, smallAttack.lb ≤ c ∧ c ≤ smallAttack.ub) ∧
    ((smallAttack.run [] [[(0 : ℚ)]] [0]).adv_ds.X =
        [[(0 : ℚ)]].map (smallAttack.adversarial []) ∧
      ∀ x ∈ [[(0 : ℚ)]],
        linfDist x (smallAttack.adversarial [] x) ≤ smallAttack.epsilons ∧
        ∀ c ∈ smallAttack.adversarial [] x,
          smallAttack.lb ≤ c ∧ c ≤ smallAttack.ub) :=
  ⟨by decide, by decide,
    pgd_run_within_budget smallAttack [] [[(0 : ℚ)]] [0] (by decide)
      (by decide)⟩

/-- Claim C2: for every attack object and input pair, `run(x, y)` returns
the predicted labels, the scores, the adversarial dataset, and the final
objective value, and `x_seq` is the optimization path: it starts at the
initialization and its last entry is the returned adversarial example. -/
theorem run_returns_quadruple (a : CFoolboxPGDLinf) (δ : List ℚ)
    (X : List (List ℚ)) (Y : List ℕ) :
    (a.run δ X Y).y_pred = (X.map (a.adversarial δ)).map a.clf.predict ∧
    (a.run δ X Y).scores =
      (X.map (a.adversarial δ)).map a.clf.decision_function ∧
    (a.run δ X Y).adv_ds = CDataset.mk (X.map (a.adversarial δ)) Y ∧
    (a.run δ X Y).f_opt =
      (List.zipWith a.lossAt (X.map (a.adversarial δ)) Y).sum ∧
    ∀ x0 : List ℚ,
      (a.x_seq δ x0).length = a.steps + 1 ∧
      (a.x_seq δ x0).getD 0 [] = a.pgdInit δ x0 ∧
      (a.x_seq δ x0).getD a.steps [] = a.adversarial δ x0 := by
  refine ⟨rfl, rfl, rfl, rfl, ?_⟩
  intro x0
  have hlen : (a.x_seq δ x0).length = a.steps + 1 := by
    simp [CFoolboxPGDLinf.x_seq]
  refine ⟨hlen, ?_, ?_⟩
  · have h0 : 0 < (a.x_seq δ x0).length := by omega
    rw [List.getD_eq_getElem _ _ h0]
    simp [CFoolboxPGDLinf.x_seq]
    rfl
  · have hs : a.steps < (a.x_seq δ x0).length := by omega
    rw [List.getD_eq_getElem _ _ hs]
    simp [CFoolboxPGDLinf.x_seq]
    rfl

/-- The robust-accuracy cell of the gradient-obfuscation notebook: both
accuracy and robust accuracy are computed by the same unconditional
`performance_score` calls on the clean and adversarial predictions; no
branch inspects whether the attack changed the predictions, and no error
is ever produced. -/
def robustnessCell (a : CFoolboxPGDLinf) (δ : List ℚ)
    (samples : List (List ℚ)) (labels : List ℕ) : Except String (ℚ × ℚ) :=
  Except.ok (performance_score labels (samples.map a.clf.predict),
             performance_score labels ((a.run δ samples labels).y_pred))

/-- Claim C8: when the attack's `run` returns predictions equal to the clean
predictions, the notebook raises no error and takes no alternative control
path: the cell always returns `ok` with the two unconditional metric calls,
and under unchanged predictions both scores coincide. -/
theorem robustness_metrics_unconditional (a : CFoolboxPGDLinf) (δ : List ℚ)
    (samples : List (List ℚ)) (labels : List ℕ) :
    robustnessCell a δ samples labels =
      Except.ok (performance_score labels (samples.map a.clf.predict),
        performance_score labels ((a.run δ samples labels).y_pred)) ∧
    ((a.run δ samples labels).y_pred = samples.map a.clf.predict →
      robustnessCell a δ samples labels =
        Except.ok (performance_score labels (samples.map a.clf.predict),
          performance_score labels (samples.map a.clf.predict))) := by
  constructor
  · rfl
  · intro h
    unfold robustnessCell
    rw [h]

theorem robustness_metrics_unconditional_witness :
    (zeroStepAttack.run [] [[(0 : ℚ)]] [0]).y_pred =
      [[(0 : ℚ)]].map zeroStepAttack.clf.predict ∧
    robustnessCell zeroStepAttack [] [[(0 : ℚ)]] [0] =
      Except.ok
        (performance_score [0] ([[(0 : ℚ)]].map zeroStepAttack.clf.predict),
         performance_score [0] ([[(0 : ℚ)]].map zeroStepAttack.clf.predict)) :=
  ⟨by decide,
    (robustness_metrics_unconditional zeroStepAttack [] [[(0 : ℚ)]] [0]).2
      (by decide)⟩

/-- Claim C3 counterexample: rescaling a portion with a min-max normalizer
fitted on a different portion does not keep every entry in `[0, 1]`.  With
the normalizer fitted on features `{0, 1}`, the test value `2` is rescaled
to `2`, outside the interval; this is the situation the poisoning notebook
itself works around ("bypassing foolbox's check on lb and ub"). -/
theorem minmax_rescale_not_unit :
    ¬ (∀ (tr ts : CDataset),
        ∀ v ∈ ((CNormalizerMinMax.fit tr.X).transform ts.X).flatten,
          0 ≤ v ∧ v ≤ 1) := by
  intro h
  have hm : ((CNormalizerMinMax.fit ([[(0 : ℚ)], [1]])).transform
      [[2]]).flatten = [2] := by
    simp [CNormalizerMinMax.fit, CNormalizerMinMax.transform, listMin,
      listMax]
  have hmem : (2 : ℚ) ∈ ((CNormalizerMinMax.fit
      (CDataset.mk [[0], [1]] [0, 1]).X).transform
      (CDataset.mk [[2]] [0]).X).flatten := by
    show (2 : ℚ) ∈ ((CNormalizerMinMax.fit
      ([[(0 : ℚ)], [1]])).transform [[2]]).flatten
    rw [hm]
    exact List.mem_singleton.mpr rfl
  have h2 := h ⟨[[0], [1]], [0, 1]⟩ ⟨[[2]], [0]⟩ 2 hmem
  exact absurd h2.2 (by norm_num)

/-- Claim C3 (amended): after the data-loading step's rescaling, every entry
of `X` lies in `[0, 1]` for data divided by 255 whose raw entries lie in
`[0, 255]`, and for the portion the min-max normalizer was fitted on; a
portion rescaled with a normalizer fitted on a different portion satisfies
the bounds only when its raw values lie within the fitted min/max range. -/
theorem rescale_entries_unit (ds : CDataset) (F T : List (List ℚ))
    (hds : ∀ v ∈ ds.X.flatten, 0 ≤ v ∧ v ≤ 255)
    (hT : ∀ v ∈ T.flatten, listMin F.flatten ≤ v ∧ v ≤ listMax F.flatten) :
    (∀ v ∈ (divBy255 ds).X.flatten, 0 ≤ v ∧ v ≤ 1) ∧
    (∀ v ∈ (CNormalizerMinMax.fit_transform F).flatten, 0 ≤ v ∧ v ≤ 1) ∧
    (∀ v ∈ ((CNormalizerMinMax.fit F).transform T).flatten,
      0 ≤ v ∧ v ≤ 1) := by
  refine ⟨?_, ?_, transform_mem_unit F T hT⟩
  · intro v hv
    rw [List.mem_flatten] at hv
    obtain ⟨r, hr, hvr⟩ := hv
    rw [divBy255, List.mem_map] at hr
    obtain ⟨r0, hr0, hr0eq⟩ := hr
    subst hr0eq
    rw [List.mem_map] at hvr
    obtain ⟨u, hu, hueq⟩ := hvr
    subst hueq
    have humem : u ∈ ds.X.flatten := List.mem_flatten.mpr ⟨r0, hr0, hu⟩
    constructor
    · exact div_nonneg (hds u humem).1 (by norm_num)
    · rw [div_le_one (by norm_num : (0 : ℚ) < 255)]
      exact (hds u humem).2
  · exact transform_mem_unit F F
      (fun v hv => ⟨listMin_le _ v hv, le_listMax _ v hv⟩)

theorem rescale_entries_unit_witness :
    (∀ v ∈ (CDataset.mk [[(0 : ℚ)], [255]] [0, 1]).X.flatten,
      0 ≤ v ∧ v ≤ 255) ∧
    (∀ v ∈ ([[(1 : ℚ)]] : List (List ℚ)).flatten,
      listMin ([[(0 : ℚ)], [1]] : List (List ℚ)).flatten ≤ v ∧
      v ≤ listMax ([[(0 : ℚ)], [1]] : List (List ℚ)).flatten) ∧
    ((∀ v ∈ (divBy255 (CDataset.mk [[(0 : ℚ)], [255]] [0, 1])).X.flatten,
        0 ≤ v ∧ v ≤ 1) ∧
      (∀ v ∈ (CNormalizerMinMax.fit_transform
          ([[(0 : ℚ)], [1]] : List (List ℚ))).flatten, 0 ≤ v ∧ v ≤ 1) ∧
      (∀ v ∈ ((CNormalizerMinMax.fit
          ([[(0 : ℚ)], [1]] : List (List ℚ))).transform
          [[(1 : ℚ)]]).flatten, 0 ≤ v ∧ v ≤ 1)) :=
  ⟨by decide, by decide,
    rescale_entries_unit (CDataset.mk [[(0 : ℚ)], [255]] [0, 1])
      [[(0 : ℚ)], [1]] [[(1 : ℚ)]] (by decide) (by decide)⟩

/-- Claim C6: normalization (division of `X` by 255 or min-max scaling of
`X`) changes only the `X` attribute of the dataset: the label vector `Y`,
the number of samples, and their order are unchanged, and row `i` of the
new `X` is the rescaling of row `i` of the old `X`. -/
theorem normalization_frame (ds : CDataset) (n : CNormalizerMinMax) :
    (divBy255 ds).Y = ds.Y ∧
    (divBy255 ds).num_samples = ds.num_samples ∧
    (divBy255 ds).X = ds.X.map (fun r => r.map (fun v => v / 255)) ∧
    (normalizeMinMaxDs n ds).Y = ds.Y ∧
    (normalizeMinMaxDs n ds).num_samples = ds.num_samples ∧
    (normalizeMinMaxDs n ds).X =
      ds.X.map (fun r => r.map (fun v => (v - n.mn) / (n.mx - n.mn))) := by
  refine ⟨rfl, ?_, rfl, rfl, ?_, rfl⟩
  · simp [divBy255, CDataset.num_samples]
  · simp [normalizeMinMaxDs, CDataset.num_samples,
      CNormalizerMinMax.transform]

/-- Claim C10: whenever the validation set is non-empty, the attack-space
bounds `lb = val.X.min()` and `ub = val.X.max()` satisfy `lb ≤ ub`, the box
constraint built from them is non-empty, and every validation point lies
inside it. -/
theorem attack_bounds_box (val : CDataset) (h : val.X.flatten ≠ []) :
    (attackBounds val).1 ≤ (attackBounds val).2 ∧
    (CConstraintBox.mk (attackBounds val).1 (attackBounds val).2).nonempty ∧
    ∀ row ∈ val.X,
      (CConstraintBox.mk (attackBounds val).1
        (attackBounds val).2).contains row := by
  have h1 : listMin val.X.flatten ≤ listMax val.X.flatten :=
    listMin_le_listMax _ h
  refine ⟨h1, h1, ?_⟩
  intro row hrow
  unfold CConstraintBox.contains
  intro v hv
  have hvf : v ∈ val.X.flatten := List.mem_flatten.mpr ⟨row, hrow, hv⟩
  exact ⟨listMin_le _ v hvf, le_listMax _ v hvf⟩

theorem attack_bounds_box_witness :
    (CDataset.mk [[(0 : ℚ), 1]] [0]).X.flatten ≠ [] ∧
    ((attackBounds (CDataset.mk [[(0 : ℚ), 1]] [0])).1 ≤
        (attackBounds (CDataset.mk [[(0 : ℚ), 1]] [0])).2 ∧
      (CConstraintBox.mk (attackBounds (CDataset.mk [[(0 : ℚ), 1]] [0])).1
        (attackBounds (CDataset.mk [[(0 : ℚ), 1]] [0])).2).nonempty ∧
      ∀ row ∈ (CDataset.mk [[(0 : ℚ), 1]] [0]).X,
        (CConstraintBox.mk (attackBounds (CDataset.mk [[(0 : ℚ), 1]] [0])).1
          (attackBounds (CDataset.mk [[(0 : ℚ), 1]] [0])).2).contains row) :=
  ⟨by decide, attack_bounds_box (CDataset.mk [[(0 : ℚ), 1]] [0]) (by decide)⟩

/-- Modelled from the spec: the gradient-based explainers of the external
toolkit (`CExplainerGradient` and variants): `explain(x, y)` computes the
relevance of each feature of `x` for the target class `y` as a numerical
gradient of the class-`y` score, feature by feature. -/
def CExplainerGradient.explain (clf : CClassifier) (h : ℚ) (x : List ℚ)
    (y : ℕ) : List ℚ :=
  (List.range x.length).map
    (fun j =>
      ((clf.decision_function (x.set j (x.getD j 0 + h))).getD y 0 -
        (clf.decision_function x).getD y 0) / h)

/-- Inner product of two vectors. -/
def dotProd (u v : List ℚ) : ℚ :=
  (List.zipWith (fun a b => a * b) u v).sum

/-- Modelled from the spec: the influence-function explainer of the external
toolkit (`CExplainerInfluenceFunctions`), configured with the classifier,
its training set and a loss identifier: for each test sample it computes
one relevance value per training sample (here a gradient inner product; the
loss identifier selects the loss whose gradients are used). -/
def CExplainerInfluenceFunctions.explain (clf : CClassifier) (tr : CDataset)
    (loss : String) (tsX : List (List ℚ)) : List (List ℚ) :=
  tsX.map (fun xt => tr.X.map (fun xr =>
    dotProd (clf.gradient xt) (clf.gradient xr)))

/-- Claim C5: a gradient-based explainer returns exactly one relevance value
per feature of `x` (a vector of length `x.size`); the influence-function
explainer returns one relevance value per training sample for each test
sample (a row of length `tr.num_samples` per test sample). -/
theorem explain_shapes (clf : CClassifier) (h : ℚ) (x : List ℚ) (y : ℕ)
    (tr : CDataset) (loss : String) (tsX : List (List ℚ)) :
    (CExplainerGradient.explain clf h x y).length = x.length ∧
    (CExplainerInfluenceFunctions.explain clf tr loss tsX).length =
      tsX.length ∧
    (CExplainerInfluenceFunctions.explain clf tr loss tsX).map
        List.length = tsX.map (fun _ => tr.num_samples) := by
  refine ⟨?_, ?_, ?_⟩
  · simp [CExplainerGradient.explain]
  · simp [CExplainerInfluenceFunctions.explain]
  · unfold CExplainerInfluenceFunctions.explain
    rw [List.map_map]
    apply List.map_congr_left
    intro xt hxt
    simp [CDataset.num_samples, Function.comp]

/-- A linear congruential pseudo-random generator, standing in for the
toolkit's seeded randomness. -/
def lcg (s : ℕ) : ℕ := (1103515245 * s + 12345) % 2147483648

/-- A deterministic noise value in `[-1/2, 1/2)` derived from a seed and a
draw index. -/
def noiseAt (seed i : ℕ) : ℚ :=
  mkRat (Int.ofNat (lcg (seed + i) % 1000)) 1000 - mkRat 1 2

/-- Modelled from the spec: the external blob-dataset loader
(`CDLRandomBlobs(...).load()`).  Randomness is a pure function of the seed:
the given `random_state` when present, otherwise the ambient notebook
entropy `world`.  Sample `i` is drawn around centre `i mod (number of
centres)` with noise scaled by `cluster_std`, and labelled by its centre. -/
def CDLRandomBlobs_load (n_features n_samples : ℕ)
    (centers : List (List ℚ)) (cluster_std : ℚ) (random_state : Option ℕ)
    (world : ℕ) : CDataset :=
  ⟨(List.range n_samples).map (fun i =>
      (List.range n_features).map (fun j =>
        (centers.getD (i % centers.length) []).getD j 0 +
          cluster_std * noiseAt (random_state.getD world)
            (n_features * i + j))),
    (List.range n_samples).map (fun i => i % centers.length)⟩

/-- Modelled from the spec: the external splitter
(`CTrainTestSplit(train_size, test_size, random_state).split(ds)`): a
seeded permutation (here a rotation drawn from the seed) followed by taking
the first `train_size` samples and the next `test_size` samples. -/
def CTrainTestSplit_split (train_size test_size : ℕ)
    (random_state : Option ℕ) (world : ℕ) (ds : CDataset) :
    CDataset × CDataset :=
  (⟨(ds.X.rotateLeft (lcg (random_state.getD world) %
        (max ds.num_samples 1))).take train_size,
    (ds.Y.rotateLeft (lcg (random_state.getD world) %
        (max ds.num_samples 1))).take train_size⟩,
   ⟨((ds.X.rotateLeft (lcg (random_state.getD world) %
        (max ds.num_samples 1))).drop train_size).take test_size,
    ((ds.Y.rotateLeft (lcg (random_state.getD world) %
        (max ds.num_samples 1))).drop train_size).take test_size⟩)

/-- The data-preparation cell of the poisoning notebook: blobs with 2
features, 1000 samples, centres `(-1,-1)` and `(1,1)`, cluster deviation
`0.9`, `random_state=999`; one split with `train_size=200, test_size=100`
giving `(tr_val, ts)` and one with `train_size=100, test_size=100` giving
`(tr, val)`, both seeded with `random_state=999` and both applied to the
full dataset, exactly as in the source.  `world` is the ambient notebook
entropy available to any unseeded randomness. -/
def dataPrep (world : ℕ) : CDataset × CDataset × CDataset :=
  (((CTrainTestSplit_split 100 100 (some 999) world
      (CDLRandomBlobs_load 2 1000 [[-1, -1], [1, 1]] (mkRat 9 10)
        (some 999) world)).1),
   ((CTrainTestSplit_split 100 100 (some 999) world
      (CDLRandomBlobs_load 2 1000 [[-1, -1], [1, 1]] (mkRat 9 10)
        (some 999) world)).2),
   ((CTrainTestSplit_split 200 100 (some 999) world
      (CDLRandomBlobs_load 2 1000 [[-1, -1], [1, 1]] (mkRat 9 10)
        (some 999) world)).2))

/-- Claim C9: with `random_state` fixed at 999, the blob generation and both
splits are deterministic: two executions of the data-preparation cell, under
any two ambient entropy values, produce identical training, validation, and
test datasets (equal `X` and `Y`). -/
theorem data_prep_deterministic (w1 w2 : ℕ) :
    (dataPrep w1).1.X = (dataPrep w2).1.X ∧
    (dataPrep w1).1.Y = (dataPrep w2).1.Y ∧
    (dataPrep w1).2.1.X = (dataPrep w2).2.1.X ∧
    (dataPrep w1).2.1.Y = (dataPrep w2).2.1.Y ∧
    (dataPrep w1).2.2.X = (dataPrep w2).2.2.X ∧
    (dataPrep w1).2.2.Y = (dataPrep w2).2.2.Y :=
  ⟨rfl, rfl, rfl, rfl, rfl, rfl⟩

/-- Exception kinds relevant to the notebooks' control flow: the
`ImportError` of an import statement, and any other exception. -/
inductive NbExc where
  | importError
  | otherError
deriving DecidableEq

/-- A notebook statement, as far as exception control flow is concerned: a
package install, an import, the import-then-install guard (the only
`try/except` construct appearing in the repository, always with an import
body and an install handler), and any other operation together with the
exception it may raise. -/
inductive NbStmt where
  | pipInstall (pkg : String)
  | importPkg (pkg : String)
  | tryImport (pkgs : List String) (caught : NbExc) (installs : List String)
  | opCall (descr : String) (raises : Option NbExc)
deriving DecidableEq

/-- A notebook cell: which notebook it belongs to, whether it is an
environment-bootstrap cell, and its statements. -/
structure NbCell where
  notebook : String
  bootstrap : Bool
  stmts : List NbStmt
deriving DecidableEq

/-- Execute one statement given which packages import successfully; the
result is the list of packages installed, or the uncaught exception. -/
def execStmt (avail : String → Bool) : NbStmt → Except NbExc (List String)
  | .pipInstall p => .ok [p]
  | .importPkg p => if avail p then .ok [] else .error .importError
  | .tryImport pkgs caught installs =>
      if pkgs.all avail then .ok []
      else if caught = .importError then .ok installs
      else .error .importError
  | .opCall _ r =>
      match r with
      | none => .ok []
      | some e => .error e

/-- Execute a cell's statements in order, stopping at the first uncaught
exception, which is surfaced unchanged. -/
def execCell (avail : String → Bool) : List NbStmt → Except NbExc (List String)
  | [] => .ok []
  | s :: rest =>
      match execStmt avail s with
      | .ok ins =>
          match execCell avail rest with
          | .ok ins2 => .ok (ins ++ ins2)
          | .error e => .error e
      | .error e => .error e

/-- The bootstrap cell of the gradient-obfuscation notebook (lines 26-45):
three import-then-install guards and the guarded clone of the companion
repository. -/
def lab04Bootstrap : NbCell :=
  ⟨"04_gradient_obfuscation_and_adaptive_attacks", true,
    [.tryImport ["secml"] .importError ["secml"],
     .tryImport ["foolbox"] .importError ["foolbox"],
     .tryImport ["robustbench"] .importError ["robustbench"],
     .opCall "clone companion repository if missing" none]⟩

/-- The bootstrap cell of the poisoning notebook (lines 40-45): an
unconditional upgrade install, then one import-then-install guard covering
both packages. -/
def lab05Bootstrap : NbCell :=
  ⟨"05_poisoning_attacks", true,
    [.pipInstall "secml",
     .tryImport ["secml", "foolbox"] .importError ["secml", "foolbox"]]⟩

/-- The bootstrap cell of the explainability notebook: unconditional
installs followed by unguarded imports (no `try/except` at all). -/
def lab06Bootstrap : NbCell :=
  ⟨"06_explainability", true,
    [.pipInstall "secml", .pipInstall "foolbox", .pipInstall "transformers",
     .pipInstall "shap", .pipInstall "datasets",
     .importPkg "secml", .importPkg "foolbox"]⟩

/-- The cells of the repository that contain any exception-related control
flow; every other cell of every notebook is straight-line code with no
`try/except`. -/
def allBootstrapCells : List NbCell :=
  [lab04Bootstrap, lab05Bootstrap, lab06Bootstrap]

/-- An import environment in which no package is available. -/
def noPkgs : String → Bool := fun _ => false

/-- Syntactic check on a cell: every `try/except` clause it contains
catches `ImportError`, sits in a bootstrap cell, and responds by
installing at least one package. -/
def handlerGuardsOk (c : NbCell) : Bool :=
  c.stmts.all (fun s =>
    match s with
    | NbStmt.tryImport _ exc ins =>
        exc == NbExc.importError && c.bootstrap && !ins.isEmpty
    | _ => true)

theorem execCell_error_from_stmt (avail : String → Bool)
    (stmts : List NbStmt) (e : NbExc) (h : execCell avail stmts = .error e) :
    ∃ s ∈ stmts, execStmt avail s = .error e := by
  induction stmts with
  | nil => simp [execCell] at h
  | cons s rest ih =>
      rw [execCell] at h
      cases hs : execStmt avail s with
      | ok ins =>
          rw [hs] at h
          cases hr : execCell avail rest with
          | ok ins2 => rw [hr] at h; cases h
          | error e2 =>
              rw [hr] at h
              cases h
              obtain ⟨s2, hs2, hs2e⟩ := ih hr
              exact ⟨s2, List.mem_cons_of_mem s hs2, hs2e⟩
      | error e2 =>
          rw [hs] at h
          cases h
          exact ⟨s, List.mem_cons_self s rest, hs⟩

/-- Claim C4: the only exception handled anywhere in the repository is an
`ImportError` raised while importing a third-party package during
environment bootstrap, and the response is installing the missing
packages; every other exception raised during any cell propagates uncaught
to the notebook output (the cell's error is exactly the error of the first
failing statement, unchanged). -/
theorem import_guard_only_handler :
    allBootstrapCells.all handlerGuardsOk = true ∧
    (∀ (avail : String → Bool) (pkgs installs : List String),
      pkgs.all avail = false →
        execStmt avail (NbStmt.tryImport pkgs NbExc.importError installs) =
          Except.ok installs) ∧
    (∀ (avail : String → Bool) (stmts : List NbStmt) (e : NbExc),
      execCell avail stmts = Except.error e →
        ∃ s ∈ stmts, execStmt avail s = Except.error e) := by
  refine ⟨by decide, ?_, execCell_error_from_stmt⟩
  intro avail pkgs installs hall
  rw [execStmt, hall]
  rfl

theorem import_guard_only_handler_witness :
    (["secml"].all noPkgs = false) ∧
    execStmt noPkgs
      (NbStmt.tryImport ["secml"] NbExc.importError ["secml"]) =
        Except.ok ["secml"] ∧
    execCell noPkgs [NbStmt.opCall "fit" (some NbExc.otherError)] =
      Except.error NbExc.otherError ∧
    (∃ s ∈ [NbStmt.opCall "fit" (some NbExc.otherError)],
      execStmt noPkgs s = Except.error NbExc.otherError) :=
  ⟨rfl,
   import_guard_only_handler.2.1 noPkgs ["secml"] ["secml"] rfl,
   rfl,
   import_guard_only_handler.2.2 noPkgs
     [NbStmt.opCall "fit" (some NbExc.otherError)] NbExc.otherError rfl⟩

/-- The filesystem state the bootstrap steps act on: the set of existing
paths and the working directory. -/
structure FsState where
  paths : List String
  cwd : String
deriving DecidableEq

/-- `os.path.exists`. -/
def pathExists (s : FsState) (p : String) : Prop := p ∈ s.paths

instance (s : FsState) (p : String) : Decidable (pathExists s p) :=
  inferInstanceAs (Decidable (p ∈ s.paths))

/-- Path concatenation relative to a directory. -/
def joinPath (d p : String) : String := d ++ "/" ++ p

/-- The guard pattern `if not os.path.exists(p): create p` shared by the
`os.mkdir('pretrained')` guard and every `download_gdrive(MODEL_ID, path)`
guard of the model-loading cells: the path is created only if absent. -/
def ensurePath (s : FsState) (p : String) : FsState :=
  if pathExists s p then s else ⟨p :: s.paths, s.cwd⟩

/-- The model-setup step: create `pretrained/` only if absent, then download
the weight file (by its fixed Google Drive identifier, to its fixed name)
only if absent. -/
def modelSetupCell (s : FsState) (f : String) : FsState :=
  ensurePath (ensurePath s "pretrained") f

/-- The repository-clone guard of the bootstrap cell (lines 41-45): if
`models` is absent from the working directory, clone the companion
repository (whose checkout contains the `models` and `attacks`
directories) unless its directory already exists, and change into it. -/
def cloneBootstrap (s : FsState) : FsState :=
  if pathExists s (joinPath s.cwd "models") then s
  else
    ⟨(if pathExists s (joinPath s.cwd "unica_mlsec_labs") then s.paths
      else
        joinPath (joinPath s.cwd "unica_mlsec_labs") "models" ::
          joinPath (joinPath s.cwd "unica_mlsec_labs") "attacks" ::
          joinPath s.cwd "unica_mlsec_labs" :: s.paths),
     joinPath s.cwd "unica_mlsec_labs"⟩

theorem ensurePath_exists (s : FsState) (p : String) :
    pathExists (ensurePath s p) p := by
  unfold ensurePath
  by_cases h : pathExists s p
  · rw [if_pos h]; exact h
  · rw [if_neg h]; exact List.mem_cons_self p s.paths

theorem ensurePath_noop (s : FsState) (p : String) (h : pathExists s p) :
    ensurePath s p = s := by
  unfold ensurePath
  rw [if_pos h]

theorem ensurePath_mono (s : FsState) (p q : String)
    (h : pathExists s q) : pathExists (ensurePath s p) q := by
  unfold ensurePath
  by_cases h1 : pathExists s p
  · rw [if_pos h1]; exact h
  · rw [if_neg h1]; exact List.mem_cons_of_mem p h

/-- Claim C7: the bootstrap and model-loading steps are idempotent on the
filesystem and guarded: `pretrained/` is created only if absent, each
weight file is downloaded only if absent, the companion repository is
cloned only if its directory is absent, and running a step twice leaves
the filesystem exactly as running it once (for the clone step, under the
sanity condition that an already-present checkout contains its `models`
directory, which a fresh clone always does). -/
theorem bootstrap_idempotent (s : FsState) (f : String)
    (hs : pathExists s (joinPath s.cwd "unica_mlsec_labs") →
      pathExists s (joinPath (joinPath s.cwd "unica_mlsec_labs") "models")) :
    cloneBootstrap (cloneBootstrap s) = cloneBootstrap s ∧
    modelSetupCell (modelSetupCell s f) f = modelSetupCell s f ∧
    (pathExists s (joinPath s.cwd "models") → cloneBootstrap s = s) ∧
    (pathExists s "pretrained" → pathExists s f → modelSetupCell s f = s) := by
  refine ⟨?_, ?_, ?_, ?_⟩
  · by_cases h1 : pathExists s (joinPath s.cwd "models")
    · have e : cloneBootstrap s = s := by
        unfold cloneBootstrap
        rw [if_pos h1]
      rw [e]
      exact e
    · by_cases h2 : pathExists s (joinPath s.cwd "unica_mlsec_labs")
      · have e : cloneBootstrap s =
            FsState.mk s.paths (joinPath s.cwd "unica_mlsec_labs") := by
          unfold cloneBootstrap
          rw [if_neg h1, if_pos h2]
        rw [e]
        unfold cloneBootstrap
        rw [if_pos]
        exact hs h2
      · have e : cloneBootstrap s =
            FsState.mk
              (joinPath (joinPath s.cwd "unica_mlsec_labs") "models" ::
                joinPath (joinPath s.cwd "unica_mlsec_labs") "attacks" ::
                joinPath s.cwd "unica_mlsec_labs" :: s.paths)
              (joinPath s.cwd "unica_mlsec_labs") := by
          unfold cloneBootstrap
          rw [if_neg h1, if_neg h2]
        rw [e]
        unfold cloneBootstrap
        rw [if_pos]
        exact List.mem_cons_self _ _
  · have hp : pathExists (modelSetupCell s f) "pretrained" :=
      ensurePath_mono _ f "pretrained" (ensurePath_exists s "pretrained")
    have hf : pathExists (modelSetupCell s f) f :=
      ensurePath_exists _ f
    show ensurePath (ensurePath (modelSetupCell s f) "pretrained") f =
      modelSetupCell s f
    rw [ensurePath_noop _ _ hp]
    exact ensurePath_noop _ _ hf
  · intro h
    unfold cloneBootstrap
    rw [if_pos h]
  · intro hp hf
    show ensurePath (ensurePath s "pretrained") f = s
    rw [ensurePath_noop s "pretrained" hp]
    exact ensurePath_noop s f hf

theorem bootstrap_idempotent_witness :
    (pathExists (FsState.mk [] "") (joinPath "" "unica_mlsec_labs") →
      pathExists (FsState.mk [] "")
        (joinPath (joinPath "" "unica_mlsec_labs") "models")) ∧
    (cloneBootstrap (cloneBootstrap (FsState.mk [] "")) =
        cloneBootstrap (FsState.mk [] "") ∧
      modelSetupCell (modelSetupCell (FsState.mk [] "")
          "pretrained/mnist_teacher.pt") "pretrained/mnist_teacher.pt" =
        modelSetupCell (FsState.mk [] "") "pretrained/mnist_teacher.pt" ∧
      (pathExists (FsState.mk [] "") (joinPath "" "models") →
        cloneBootstrap (FsState.mk [] "") = FsState.mk [] "") ∧
      (pathExists (FsState.mk [] "") "pretrained" →
        pathExists (FsState.mk [] "") "pretrained/mnist_teacher.pt" →
        modelSetupCell (FsState.mk [] "") "pretrained/mnist_teacher.pt" =
          FsState.mk [] "")) :=
  ⟨fun h => absurd h (by decide),
   bootstrap_idempotent (FsState.mk [] "") "pretrained/mnist_teacher.pt"
     (fun h => absurd h (by decide))⟩
